import Mathlib

/-!
# Verification of the burroughs_stat_tracker incremental batch-diff engine

Shallow embedding of the statistics core of the `burroughs_stat_tracker`
repository, together with theorems settling the frozen claims about it.

Embedding conventions, used throughout:

* A Python `dict` is an association list `List (String × SCRecord)` whose key
  list is `Nodup` (Python dict keys are unique); `List.lookup` is dict lookup
  (first match), and iteration order is list order.
* Timestamps (naive CST datetimes) are integers counting minutes, chosen so
  that `t.ediv 1440` is the proleptic-Gregorian ordinal of the CST date
  (Python `date.toordinal()`), hence `(o + 6).emod 7` is Python
  `date.weekday()` (Monday = 0 .. Sunday = 6) for a date with ordinal `o`.
* Python `int` arithmetic is `Int` (`//` and `%` are `Int.ediv`/`Int.emod`,
  floor semantics; `int()` applied to a float ratio truncates toward zero).
  Python float rates are modelled as `Rat`: the source always guards
  divisions with `if denominator > 0 ... else 0`, which is mirrored
  literally, so no float-specific behaviour (NaN/inf) is reachable.
* SQL result sets are lists of typed rows; `SELECT ... WHERE` is
  `List.filter`, `ORDER BY c ASC` is a stable sort (the code never
  depends on the order of ties), `SUM` over no rows is `NULL`, which the
  source coalesces with `or 0`; our rows store non-nullable numbers, for
  which `x or 0 = x` as a value (`0 or 0` is `0`), so `e['F'] or 0` is
  translated as plain field access.
-/

/-- One service-call snapshot row, as consumed by the batch-diff engine
(`app/utils/data.py`, `app/services/batch_stats.py`).  `id` is the raw
insertion-order identifier (column `ID`), `serviceCallID` the entity key,
`appointment` the value of `int(rec['Appointment'])`, `openDateTime` the
nullable `Open DateTime` in minutes, `equipmentID` the nullable
`Equipment_ID` (a missing key and a null value behave identically in the
source: both fail the truthiness test in `is_recycler`). -/
structure SCRecord where
  id : Int
  serviceCallID : String
  apptStatus : String
  appointment : Int
  openDateTime : Option Int
  equipmentID : Option String
  vendorCallNumber : Option String
deriving Repr, DecidableEq

/-- A deduplicated batch: mapping from `Service_Call_ID` to its record. -/
abbrev CallMap := List (String × SCRecord)

/-- Key list of a calls dict. -/
def keysList (m : CallMap) : List String := m.map Prod.fst

/-- Key set of a calls dict. -/
def keysFinset (m : CallMap) : Finset String := (m.map Prod.fst).toFinset

/-- `app/utils/equipment.py::is_recycler`: empty/missing equipment id is
falsy and yields `False`; otherwise upper-case and test the fixed list of
prefixes. -/
def is_recycler (equipmentID : String) : Bool :=
  if equipmentID = "" then false
  else
    let u := equipmentID.toUpper
    u.startsWith "N4R" || u.startsWith "N9R" || u.startsWith "N7F" || u.startsWith "RF"

/-- `record.get('Equipment_ID', '')`: a missing (or null) field reads as "". -/
def equipmentIdOf (r : SCRecord) : String := r.equipmentID.getD ""

/-- `app/utils/equipment.py::filter_by_equipment_type`: keep the entries
whose equipment classification matches the requested polarity. -/
def filter_by_equipment_type (callsDict : CallMap) (isRecyclerFilter : Bool) : CallMap :=
  callsDict.filter (fun e => isRecyclerFilter == is_recycler (equipmentIdOf e.2))

/-- Python `sorted(records, key=lambda x: x['ID'], reverse=True)`: the stable
sort, descending by `ID`.  (Python `sorted` is stable; a stable sort with
respect to a total preorder is unique, and `insertionSort` with this
relation is that stable sort.) -/
def sortByIdDesc (records : List SCRecord) : List SCRecord :=
  records.insertionSort (fun a b => b.id ≤ a.id)

/-- The body of the dedup loop: `if call_id not in unique_calls:
unique_calls[call_id] = record` (appending preserves dict insertion order;
an existing key leaves the dict unchanged). -/
def addIfAbsent (m : CallMap) (r : SCRecord) : CallMap :=
  if (keysList m).contains r.serviceCallID then m else m ++ [(r.serviceCallID, r)]

/-- `app/utils/data.py::deduplicate_records`: iterate over the records in
descending `ID` order, keeping the first record seen for each
`Service_Call_ID`. -/
def deduplicate_records (records : List SCRecord) : CallMap :=
  (sortByIdDesc records).foldl addIfAbsent []

example : deduplicate_records [] = [] := rfl

/-! ## Batch-diff statistics (`app/services/batch_stats.py::process_equipment_type_stats`)

The SQL cursor is modelled by explicit state: the closed-call history table
(ledger) is a list of `HistoryRow`; the `MERGE ... WHEN NOT MATCHED THEN
INSERT` upsert and the reopen `SELECT` are pure operations on it. -/

/-- One row of the closed-call history table
(`Service_Call_ID, ClosedTimestamp, OpenDateTime, Equipment_ID, VendorCallNumber`). -/
structure HistoryRow where
  serviceCallID : String
  closedTimestamp : Int
  openDateTime : Option Int
  equipmentID : Option String
  vendorCallNumber : Option String
deriving Repr, DecidableEq

/-- `get_cst_date` on a (possibly null) stored datetime: the CST calendar
date, i.e. the day ordinal of the minute timestamp; `None` maps to `None`. -/
def getCstDate (dt : Option Int) : Option Int := dt.map (fun t => t.ediv 1440)

/-- B. Closed-call set (line 43):
`set(previous_filtered.keys()) - set(latest_filtered.keys()) if previous_filtered else set()`. -/
def closedCallIDs (previousFiltered latestFiltered : CallMap) : Finset String :=
  if previousFiltered ≠ [] then keysFinset previousFiltered \ keysFinset latestFiltered
  else ∅

/-- C. Newly-opened set (line 83):
`set(latest_filtered.keys()) - set(previous_filtered.keys()) if previous_filtered else set(latest_filtered.keys())`. -/
def newlyOpenedCallIDs (previousFiltered latestFiltered : CallMap) : Finset String :=
  if previousFiltered ≠ [] then keysFinset latestFiltered \ keysFinset previousFiltered
  else keysFinset latestFiltered

/-- The same-day test for one closed call (lines 52-55): both CST dates must
be non-null and equal.  `latest_pushed_at` is the non-null batch timestamp. -/
def isSameDayClosure (previousFiltered : CallMap) (latestPushedAt : Int)
    (callId : String) : Bool :=
  match List.lookup callId previousFiltered with
  | some prevRec =>
      match getCstDate prevRec.openDateTime, getCstDate (some latestPushedAt) with
      | some openDate, some pushedDate => openDate = pushedDate
      | _, _ => false
  | none => false

/-- The first-time-fix test for one closed call (line 56):
`int(prev_rec['Appointment']) == 1`. -/
def isFirstTimeFix (previousFiltered : CallMap) (callId : String) : Bool :=
  match List.lookup callId previousFiltered with
  | some prevRec => prevRec.appointment = 1
  | none => false

/-- `same_day_closures` accumulated over the closed-call set. -/
def sameDayClosures (previousFiltered latestFiltered : CallMap)
    (latestPushedAt : Int) : Nat :=
  ((closedCallIDs previousFiltered latestFiltered).filter
    (fun callId => isSameDayClosure previousFiltered latestPushedAt callId = true)).card

/-- `first_time_fixes` accumulated over the closed-call set. -/
def firstTimeFixes (previousFiltered latestFiltered : CallMap) : Nat :=
  ((closedCallIDs previousFiltered latestFiltered).filter
    (fun callId => isFirstTimeFix previousFiltered callId = true)).card

/-- Sum of `completed_call_appointment_numbers` (one appointment number per
closed call, read from the previous snapshot). -/
def completedAppointmentSum (previousFiltered latestFiltered : CallMap) : Int :=
  ∑ callId ∈ closedCallIDs previousFiltered latestFiltered,
    ((List.lookup callId previousFiltered).map (fun r => r.appointment)).getD 0

/-- `total_closed = len(closed_call_ids)` (line 75). -/
def totalClosed (previousFiltered latestFiltered : CallMap) : Nat :=
  (closedCallIDs previousFiltered latestFiltered).card

/-- `same_day_close_rate = same_day_closures / total_closed if total_closed > 0 else 0`. -/
def sameDayCloseRate (previousFiltered latestFiltered : CallMap)
    (latestPushedAt : Int) : Rat :=
  if 0 < totalClosed previousFiltered latestFiltered then
    (sameDayClosures previousFiltered latestFiltered latestPushedAt : Rat) /
      (totalClosed previousFiltered latestFiltered : Rat)
  else 0

/-- `first_time_fix_rate = first_time_fixes / total_closed if total_closed > 0 else 0`. -/
def firstTimeFixRate (previousFiltered latestFiltered : CallMap) : Rat :=
  if 0 < totalClosed previousFiltered latestFiltered then
    (firstTimeFixes previousFiltered latestFiltered : Rat) /
      (totalClosed previousFiltered latestFiltered : Rat)
  else 0

/-- `avg_appt_per_completed = sum(...) / total_closed if total_closed > 0 else 0`. -/
def avgApptPerCompleted (previousFiltered latestFiltered : CallMap) : Rat :=
  if 0 < totalClosed previousFiltered latestFiltered then
    (completedAppointmentSum previousFiltered latestFiltered : Rat) /
      (totalClosed previousFiltered latestFiltered : Rat)
  else 0

/-- The ledger upserts performed by the closed-call loop (lines 61-71): for
each closed call, `MERGE` inserts a `(Service_Call_ID, ClosedTimestamp)` row
only when no row with that key pair exists.  Applied over the closed-call
set (a Python set; the fold order is the sorted key order, which is
irrelevant because key pairs are distinct across the set). -/
def mergeClosedCall (previousFiltered : CallMap) (latestPushedAt : Int)
    (history : List HistoryRow) (callId : String) : List HistoryRow :=
  match List.lookup callId previousFiltered with
  | some prevRec =>
      if history.any (fun row =>
          decide (row.serviceCallID = callId ∧ row.closedTimestamp = latestPushedAt)) then
        history
      else
        history ++ [{ serviceCallID := callId, closedTimestamp := latestPushedAt,
                      openDateTime := prevRec.openDateTime,
                      equipmentID := prevRec.equipmentID,
                      vendorCallNumber := prevRec.vendorCallNumber }]
  | none => history

/-- History table after the closed-call loop. -/
def historyAfterClosedLoop (previousFiltered latestFiltered : CallMap)
    (latestPushedAt : Int) (history : List HistoryRow) : List HistoryRow :=
  ((closedCallIDs previousFiltered latestFiltered).sort (· ≤ ·)).foldl
    (mergeClosedCall previousFiltered latestPushedAt) history

/-- The reopen query (lines 91-104): count the history rows whose call id is
among the newly-opened ids and whose `ClosedTimestamp` is within the last 14
days (`fourteen_days_ago = latest_pushed_at - 14 days`); the query is only
issued when the newly-opened set is non-empty. -/
def reopenedCalls (previousFiltered latestFiltered : CallMap)
    (latestPushedAt : Int) (history : List HistoryRow) : Nat :=
  if newlyOpenedCallIDs previousFiltered latestFiltered ≠ ∅ then
    (history.filter (fun row =>
      decide (row.serviceCallID ∈ newlyOpenedCallIDs previousFiltered latestFiltered ∧
        latestPushedAt - 14 * 1440 ≤ row.closedTimestamp))).length
  else 0

/-- `reopen_rate = reopened_calls / len(newly_opened_call_ids) if newly_opened_call_ids else 0`
(line 107). -/
def reopenRate (previousFiltered latestFiltered : CallMap)
    (latestPushedAt : Int) (history : List HistoryRow) : Rat :=
  if newlyOpenedCallIDs previousFiltered latestFiltered ≠ ∅ then
    (reopenedCalls previousFiltered latestFiltered latestPushedAt history : Rat) /
      ((newlyOpenedCallIDs previousFiltered latestFiltered).card : Rat)
  else 0

/-- The per-call follow-up test (lines 115-121): the call is present in
both snapshots, its appointment number increased, and the latest
appointment number exceeds 1. -/
def followUpTest (previousFiltered latestFiltered : CallMap) (callId : String) : Bool :=
  match List.lookup callId previousFiltered, List.lookup callId latestFiltered with
  | some prevRec, some latestRec =>
      decide (prevRec.appointment < latestRec.appointment ∧ 1 < latestRec.appointment)
  | _, _ => false

/-- D. Follow-up count (lines 113-124): iterate over the keys of the latest
snapshot, counting the keys passing `followUpTest`; zero when the previous
snapshot is empty. -/
def totalFollowUpAppointments (previousFiltered latestFiltered : CallMap) : Nat :=
  if previousFiltered ≠ [] then
    ((keysList latestFiltered).filter (followUpTest previousFiltered latestFiltered)).length
  else 0

/-- Unique appointment numbers in the latest snapshot (lines 127-130): the
loop inserts `int(record['Appointment'])` of every entry into a set. -/
def uniqueAppointmentNumbers (latestFiltered : CallMap) : Finset Int :=
  (latestFiltered.map (fun e => e.2.appointment)).foldl (fun s a => insert a s) ∅

/-- `total_appointments = len(unique_appointments)` (line 130). -/
def totalAppointmentsRDR (latestFiltered : CallMap) : Nat :=
  (uniqueAppointmentNumbers latestFiltered).card

/-- `repeat_dispatch_rate = follow_ups / total_appointments if total_appointments > 0 else 0`
(line 134). -/
def repeatDispatchRate (previousFiltered latestFiltered : CallMap) : Rat :=
  if 0 < totalAppointmentsRDR latestFiltered then
    (totalFollowUpAppointments previousFiltered latestFiltered : Rat) /
      (totalAppointmentsRDR latestFiltered : Rat)
  else 0

/-- The batch metric row inserted into the stat table (`stats_to_insert`,
lines 138-148). -/
structure BatchStatsRow where
  timestamp : Int
  batchID : Int
  totalOpenCalls : Nat
  callsClosedSinceLastBatch : Nat
  sameDayClosures : Nat
  callsWithMultipleAppointments : Nat
  averageAppointmentNumber : Rat
  statusSummary : List String
  sameDayCloseRate : Rat
  avgAppointmentsPerCompletedCall : Rat
  firstTimeFixRate : Rat
  fourteenDayReopenRate : Rat
  totalFollowUpAppointments : Nat
  totalAppointments : Nat
  repeatDispatchRate : Rat
deriving Repr, DecidableEq

/-- `previous_filtered` (line 29): the previous snapshot filtered by
equipment type, or the empty mapping when the previous snapshot is falsy. -/
def previousFilteredOf (previousCalls : CallMap) (isRecyclerType : Bool) : CallMap :=
  if previousCalls ≠ [] then filter_by_equipment_type previousCalls isRecyclerType else []

/-- `app/services/batch_stats.py::process_equipment_type_stats`, as a pure
function: filters both snapshots by equipment type, computes the batch
metric record, and returns it together with the history table after the
closed-call `MERGE` upserts.  (`StatusSummary` is kept as the raw status
list of the latest snapshot; the source serialises a `Counter` of it.) -/
def process_equipment_type_stats (latestCalls previousCalls : CallMap)
    (latestPushedAt : Int) (latestBatchID : Int) (history : List HistoryRow)
    (isRecyclerType : Bool) : BatchStatsRow × List HistoryRow :=
  let latestFiltered := filter_by_equipment_type latestCalls isRecyclerType
  let previousFiltered := previousFilteredOf previousCalls isRecyclerType
  let totalOpenCalls := latestFiltered.length
  let callsWithMultiAppt := (latestFiltered.filter (fun e => 2 ≤ e.2.appointment)).length
  let totalAppointments : Int := (latestFiltered.map (fun e => e.2.appointment)).sum
  let avgApptNum : Rat :=
    if 0 < totalOpenCalls then (totalAppointments : Rat) / (totalOpenCalls : Rat) else 0
  let row : BatchStatsRow :=
    { timestamp := latestPushedAt
      batchID := latestBatchID
      totalOpenCalls := totalOpenCalls
      callsClosedSinceLastBatch := totalClosed previousFiltered latestFiltered
      sameDayClosures := sameDayClosures previousFiltered latestFiltered latestPushedAt
      callsWithMultipleAppointments := callsWithMultiAppt
      averageAppointmentNumber := avgApptNum
      statusSummary := latestFiltered.map (fun e => e.2.apptStatus)
      sameDayCloseRate := sameDayCloseRate previousFiltered latestFiltered latestPushedAt
      avgAppointmentsPerCompletedCall := avgApptPerCompleted previousFiltered latestFiltered
      firstTimeFixRate := firstTimeFixRate previousFiltered latestFiltered
      fourteenDayReopenRate := reopenRate previousFiltered latestFiltered latestPushedAt history
      totalFollowUpAppointments := totalFollowUpAppointments previousFiltered latestFiltered
      totalAppointments := totalAppointmentsRDR latestFiltered
      repeatDispatchRate := repeatDispatchRate previousFiltered latestFiltered }
  (row, historyAfterClosedLoop previousFiltered latestFiltered latestPushedAt history)

/-! ## Period clock (`app/utils/timezone.py`)

An instant is a naive CST datetime; its clock time is a pair
`(hour, minute)` and its calendar date has proleptic-Gregorian ordinal `o`
with Python weekday `(o + 6) % 7` (Monday = 0 .. Sunday = 6).
`EOD_HOUR`/`EOD_MINUTE`/`WEEK_STARTS_ON` are configuration parameters
(defaults 23, 59, and the week-start-day string). -/

/-- `timezone.py::is_end_of_day_cst` on the CST clock time of the instant:
the trigger is the configured EOD time plus 30 minutes, with minute
overflow rolling into the next hour (mod 24); when the trigger hour rolled
over to 0 any positive hour is past the trigger, otherwise compare against
the same-day trigger. -/
def is_end_of_day_cst (eodHour eodMinute : Nat) (hour minute : Nat) : Bool :=
  let eodTriggerMinute := eodMinute + 30
  let eodTriggerHour := eodHour
  let (eodTriggerHour, eodTriggerMinute) :=
    if 60 ≤ eodTriggerMinute then ((eodTriggerHour + 1) % 24, eodTriggerMinute % 60)
    else (eodTriggerHour, eodTriggerMinute)
  if eodTriggerHour = 0 then
    if hour = 0 then decide (eodTriggerMinute ≤ minute)
    else if 0 < hour then true
    else false
  else
    if eodTriggerHour < hour then true
    else if hour = eodTriggerHour then decide (eodTriggerMinute ≤ minute)
    else false

/-- Python `date.weekday()` for a date with proleptic-Gregorian ordinal `o`
(ordinal 1 = 0001-01-01, a Monday): Monday = 0 .. Sunday = 6. -/
def pyWeekday (o : Int) : Int := (o + 6) % 7

/-- `timezone.py::get_week_start_end` on date ordinals: the start (and
start + 6) of the week containing the date, for the configured week-start
day ("Sunday", else Monday). -/
def get_week_start_end (d : Int) (weekStartsOn : String) : Int × Int :=
  let weekday := pyWeekday d
  let weekStart :=
    if weekStartsOn = "Sunday" then d - (weekday + 1) % 7
    else d - weekday
  (weekStart, weekStart + 6)

/-- Gregorian leap-year test. -/
def isLeapYear (y : Int) : Bool := (y % 4 = 0 ∧ y % 100 ≠ 0) ∨ y % 400 = 0

/-- Proleptic-Gregorian ordinal of January 1 of year `y` (Python
`date(y, 1, 1).toordinal()`), for `y ≥ 1`. -/
def jan1Ordinal (y : Int) : Int :=
  365 * (y - 1) + (y - 1).ediv 4 - (y - 1).ediv 100 + (y - 1).ediv 400 + 1

/-- The year of the date with proleptic-Gregorian ordinal `o` (the `.year`
of Python `date.fromordinal(o)`), computed by the standard 400/100/4/1-year
cycle decomposition used by CPython's `datetime` module. -/
def yearOfOrdinal (o : Int) : Int :=
  let n := o - 1
  let n400 := n.ediv 146097
  let n := n.emod 146097
  let n100 := n.ediv 36524
  let n := n.emod 36524
  let n4 := n.ediv 1461
  let n := n.emod 1461
  let n1 := n.ediv 365
  let year := n400 * 400 + n100 * 100 + n4 * 4 + n1 + 1
  if n1 = 4 ∨ n100 = 4 then year - 1 else year

/-- `timezone.py::get_week_number` on date ordinals: `year_start` is
January 1 of the input date's year (`date.replace(month=1, day=1)`); the
week number is `(week_start - year_start) // 7 + 1` (Python floor
division); the returned year is the week start's year when that is smaller
than the input date's year. -/
def get_week_number (d : Int) (weekStartsOn : String) : Int × Int :=
  let yearStart := jan1Ordinal (yearOfOrdinal d)
  let weekStart := (get_week_start_end d weekStartsOn).1
  let daysFromYearStart := weekStart - yearStart
  let weekNumber := daysFromYearStart.ediv 7 + 1
  if yearOfOrdinal weekStart < yearOfOrdinal d then (yearOfOrdinal weekStart, weekNumber)
  else (yearOfOrdinal d, weekNumber)

/-- `timezone.py::is_end_of_week_cst` on the CST date ordinal and clock time
of the instant: the weekday must be Saturday (week starting Sunday) or
Sunday (week starting Monday), and the clock must read hour `EOD_HOUR` with
minute at least `EOD_MINUTE`. -/
def is_end_of_week_cst (eodHour eodMinute : Nat) (weekStartsOn : String)
    (d : Int) (hour minute : Nat) : Bool :=
  let isSaturday :=
    if weekStartsOn = "Sunday" then decide (pyWeekday d = 5)
    else decide (pyWeekday d = 6)
  let isEod := decide (hour = eodHour) && decide (eodMinute ≤ minute)
  isSaturday && isEod

/-! ## Batch-level aggregation (`app/services/hourly_aggregator.py::aggregate_batch_stats`)

Database state is explicit: the batch stat table (written by
`process_equipment_type_stats`), the batch-aggregate table, and the raw
source table.  The equipment type, determined in the source by comparing
the stat-table name against the configured recycler table name, is a
boolean parameter. -/

/-- Python `int()` applied to a rational value: truncation toward zero. -/
def pyInt (q : Rat) : Int := q.num.tdiv q.den

/-- One row of the per-batch stat table, as selected by the aggregation
query (lines 79-123). -/
structure StatRow where
  BatchID : Int
  Timestamp : Int
  TotalOpenCalls : Int
  CallsClosedSinceLastBatch : Int
  SameDayClosures : Int
  CallsWithMultipleAppointments : Int
  AverageAppointmentNumber : Rat
  SameDayCloseRate : Rat
  AvgAppointmentsPerCompletedCall : Rat
  FirstTimeFixRate : Rat
  TotalFollowUpAppointments : Int
  TotalAppointments : Int
  RepeatDispatchRate : Rat

/-- One row of the batch-aggregate table, with exactly the columns of the
`INSERT` at lines 437-457. -/
structure AggRow where
  Date : Int
  Hour : Int
  PeriodMinute : Int
  PeriodStart : Int
  PeriodEnd : Int
  Timestamp : Int
  TotalOpenCalls : Int
  TotalClosedCalls : Int
  TotalSameDayClosures : Int
  TotalCallsWithMultiAppt : Int
  TotalNewCalls : Int
  TotalReopenedCalls : Int
  TotalNotServicedYet : Int
  SumAppointments : Int
  SumCompletedAppointments : Int
  AverageAppointmentNumber : Rat
  SameDayCloseRate : Rat
  FirstTimeFixRate : Rat
  AvgAppointmentsPerCompletedCall : Rat
  TotalFirstTimeFixes : Int
  TotalClosedCallsForFTF : Int
  FirstTimeFixRate_RunningTotal : Rat
  TotalFollowUpAppointments : Int
  TotalAppointments : Int
  RepeatDispatchRate : Rat
  BatchCount : Int
  BatchMissing : Int

/-- One row of the raw source table (the columns the aggregator reads). -/
structure SourceRow where
  ServiceCallID : String
  PushedAt : Int
  Appointment : Int
  EquipmentID : String

/-- The tables touched by the batch aggregator. -/
structure StatsDB where
  statTable : List StatRow
  batchTable : List AggRow
  sourceTable : List SourceRow

/-- `SELECT TOP 1 ... WHERE PeriodEnd < %s ORDER BY PeriodEnd DESC` (lines
138-146): the committed aggregate row with the greatest `PeriodEnd` before
the given one (first such row if several share it). -/
def latestAggBefore (rows : List AggRow) (periodEnd : Int) : Option AggRow :=
  (rows.filter (fun r => decide (r.PeriodEnd < periodEnd))).foldl
    (fun best r =>
      match best with
      | none => some r
      | some b => if b.PeriodEnd < r.PeriodEnd then some r else some b)
    none

/-- The loop-carried accumulators of the batch loop (lines 129-229). -/
structure HourlyAcc where
  totalOpenCalls : Int
  totalClosedCalls : Int
  totalSameDayClosures : Int
  totalCallsWithMultiAppt : Int
  sumAppointments : Int
  sumCompletedAppointments : Int
  totalClosedForRates : Int
  weightedSameDayCloseRate : Rat
  weightedFirstTimeFixRate : Rat
  weightedAvgApptPerCompleted : Rat
  totalFollowUpAppointments : Int
  totalFirstTimeFixesHour : Int
  totalClosedCallsHour : Int
  latestBatch : Option StatRow

/-- One iteration of `for batch in batches:` (lines 182-229): snapshot
fields are overwritten with the current batch's values, sum fields
accumulate, weighted-rate fields accumulate only for batches with closed
calls. -/
def hourlyStep (acc : HourlyAcc) (batch : StatRow) : HourlyAcc :=
  let closedCount := batch.CallsClosedSinceLastBatch
  { totalOpenCalls := batch.TotalOpenCalls
    totalClosedCalls := acc.totalClosedCalls + closedCount
    totalSameDayClosures := acc.totalSameDayClosures + batch.SameDayClosures
    totalCallsWithMultiAppt := batch.CallsWithMultipleAppointments
    sumAppointments :=
      if 0 < batch.AverageAppointmentNumber ∧ 0 < batch.TotalOpenCalls then
        pyInt (batch.AverageAppointmentNumber * (batch.TotalOpenCalls : Rat))
      else acc.sumAppointments
    sumCompletedAppointments :=
      if 0 < batch.AvgAppointmentsPerCompletedCall ∧ 0 < closedCount then
        acc.sumCompletedAppointments +
          pyInt (batch.AvgAppointmentsPerCompletedCall * (closedCount : Rat))
      else acc.sumCompletedAppointments
    totalClosedForRates :=
      if 0 < closedCount then acc.totalClosedForRates + closedCount
      else acc.totalClosedForRates
    weightedSameDayCloseRate :=
      if 0 < closedCount then
        acc.weightedSameDayCloseRate + batch.SameDayCloseRate * (closedCount : Rat)
      else acc.weightedSameDayCloseRate
    weightedFirstTimeFixRate :=
      if 0 < closedCount then
        acc.weightedFirstTimeFixRate + batch.FirstTimeFixRate * (closedCount : Rat)
      else acc.weightedFirstTimeFixRate
    weightedAvgApptPerCompleted :=
      if 0 < closedCount then
        acc.weightedAvgApptPerCompleted +
          batch.AvgAppointmentsPerCompletedCall * (closedCount : Rat)
      else acc.weightedAvgApptPerCompleted
    totalFollowUpAppointments :=
      acc.totalFollowUpAppointments + batch.TotalFollowUpAppointments
    totalFirstTimeFixesHour :=
      if 0 < closedCount then
        acc.totalFirstTimeFixesHour + pyInt (batch.FirstTimeFixRate * (closedCount : Rat))
      else acc.totalFirstTimeFixesHour
    totalClosedCallsHour :=
      if 0 < closedCount then acc.totalClosedCallsHour + closedCount
      else acc.totalClosedCallsHour
    latestBatch := some batch }

/-- Unique appointment numbers read back from the source table for a list
of batch timestamps (`SELECT DISTINCT "Appointment", "Equipment_ID" ...
WHERE "Pushed At" IN (...)`, lines 244-257 and 329-341), filtered by
equipment type in Python; the `DISTINCT` on pairs does not change the
resulting set of appointment numbers. -/
def uniqueAppointmentsFromSource (rows : List SourceRow) (timestamps : List Int)
    (isRecyclerType : Bool) : Finset Int :=
  (((rows.filter (fun s => decide (s.PushedAt ∈ timestamps))).filter
      (fun s => is_recycler s.EquipmentID == isRecyclerType)).map
    (fun s => s.Appointment)).toFinset

/-- The batches selected for the aggregation period (lines 77-124): all
stat rows with `Timestamp` in `(last, current]` (or all rows up to
`current` on the first aggregation), ordered by `Timestamp` ascending. -/
def batchesInPeriod (statTable : List StatRow) (lastAggregationTimestamp : Option Int)
    (periodEnd : Int) : List StatRow :=
  let inPeriod : List StatRow :=
    match lastAggregationTimestamp with
    | some t => statTable.filter (fun r => decide (t < r.Timestamp ∧ r.Timestamp ≤ periodEnd))
    | none => statTable.filter (fun r => decide (r.Timestamp ≤ periodEnd))
  inPeriod.insertionSort (fun a b => a.Timestamp ≤ b.Timestamp)

set_option maxHeartbeats 1000000 in
/-- The batch-aggregate row computed by `aggregate_batch_stats` (lines
126-470, between the idempotency guard and the `INSERT`). -/
def aggRowFor (db : StatsDB) (isRecyclerType : Bool)
    (lastAggregationTimestamp : Option Int) (currentBatchTimestamp : Int) : AggRow :=
  let dateCst := currentBatchTimestamp.ediv 1440
  let hour := (currentBatchTimestamp.emod 1440).ediv 60
  let periodStart := lastAggregationTimestamp.getD currentBatchTimestamp
  let periodEnd := currentBatchTimestamp
  let batches : List StatRow :=
    batchesInPeriod db.statTable lastAggregationTimestamp periodEnd
  let batchMissing := batches.isEmpty
  let prevPeriod : Option AggRow :=
    if batchMissing then latestAggBefore db.batchTable periodEnd else none
  let init : HourlyAcc :=
    { totalOpenCalls := match prevPeriod with | some p => p.TotalOpenCalls | none => 0
      totalClosedCalls := 0
      totalSameDayClosures := 0
      totalCallsWithMultiAppt :=
        match prevPeriod with | some p => p.TotalCallsWithMultiAppt | none => 0
      sumAppointments := 0
      sumCompletedAppointments := 0
      totalClosedForRates := 0
      weightedSameDayCloseRate := 0
      weightedFirstTimeFixRate := 0
      weightedAvgApptPerCompleted := 0
      totalFollowUpAppointments := 0
      totalFirstTimeFixesHour := 0
      totalClosedCallsHour := 0
      latestBatch := none }
  let missingNotServicedYet : Int :=
    match prevPeriod with | some p => p.TotalNotServicedYet | none => 0
  let missingAvgApptNum : Rat :=
    match prevPeriod with | some p => p.AverageAppointmentNumber | none => 0
  let acc : HourlyAcc := batches.foldl hourlyStep init
  let dayRows : List AggRow :=
    db.batchTable.filter (fun r => decide (r.Date = dateCst ∧ r.PeriodEnd < periodEnd))
  let prevSameDayClosures := (dayRows.map (fun r => r.TotalSameDayClosures)).sum
  let rollingTotalSameDayClosures := prevSameDayClosures + acc.totalSameDayClosures
  let prevTotalClosedCalls := (dayRows.map (fun r => r.TotalClosedCalls)).sum
  let totalClosedCallsToday := prevTotalClosedCalls + acc.totalClosedCallsHour
  let rollingSameDayCloseRate : Rat :=
    if 0 < totalClosedCallsToday then
      (rollingTotalSameDayClosures : Rat) / (totalClosedCallsToday : Rat)
    else 0
  let prevFollowUpAppointments := (dayRows.map (fun r => r.TotalFollowUpAppointments)).sum
  let rollingTotalFollowUpAppointments :=
    prevFollowUpAppointments + acc.totalFollowUpAppointments
  let dayStart := dateCst * 1440
  let batchTimestampsToday : List Int :=
    ((db.sourceTable.filter (fun s =>
        decide (dayStart ≤ s.PushedAt ∧ s.PushedAt ≤ periodEnd))).map
      (fun s => s.PushedAt)).dedup
  let totalAppointmentsToday :=
    (uniqueAppointmentsFromSource db.sourceTable batchTimestampsToday isRecyclerType).card
  let rollingRdr : Rat :=
    if 0 < totalAppointmentsToday then
      (rollingTotalFollowUpAppointments : Rat) / (totalAppointmentsToday : Rat)
    else 0
  let firstTimeFixRateWeighted : Rat :=
    if 0 < acc.totalClosedForRates then
      acc.weightedFirstTimeFixRate / (acc.totalClosedForRates : Rat)
    else 0
  let avgApptPerCompletedWeighted : Rat :=
    if 0 < acc.totalClosedForRates then
      acc.weightedAvgApptPerCompleted / (acc.totalClosedForRates : Rat)
    else 0
  let avgApptNum : Rat :=
    if !batchMissing then
      match acc.latestBatch with | some b => b.AverageAppointmentNumber | none => 0
    else missingAvgApptNum
  let prevTotalFirstTimeFixes := (dayRows.map (fun r => r.TotalFirstTimeFixes)).sum
  let prevTotalClosedCallsFTF := (dayRows.map (fun r => r.TotalClosedCallsForFTF)).sum
  let cumulativeFirstTimeFixes := prevTotalFirstTimeFixes + acc.totalFirstTimeFixesHour
  let cumulativeClosedCalls := prevTotalClosedCallsFTF + acc.totalClosedCallsHour
  let firstTimeFixRateRunningTotal : Rat :=
    if 0 < cumulativeClosedCalls then
      (cumulativeFirstTimeFixes : Rat) / (cumulativeClosedCalls : Rat)
    else 0
  let totalNotServicedYet : Int :=
    if !batchMissing then
      match acc.latestBatch with
      | some latest =>
          ((db.sourceTable.filter (fun s =>
              decide (s.PushedAt = latest.Timestamp ∧ s.Appointment = 1))).filter
            (fun s => is_recycler s.EquipmentID == isRecyclerType)).length
      | none => 0
    else missingNotServicedYet
  { Date := dateCst
    Hour := hour
    PeriodMinute := 0
    PeriodStart := periodStart
    PeriodEnd := periodEnd
    Timestamp := periodEnd
    TotalOpenCalls := acc.totalOpenCalls
    TotalClosedCalls := acc.totalClosedCalls
    TotalSameDayClosures := rollingTotalSameDayClosures
    TotalCallsWithMultiAppt := acc.totalCallsWithMultiAppt
    TotalNewCalls := 0
    TotalReopenedCalls := 0
    TotalNotServicedYet := totalNotServicedYet
    SumAppointments := acc.sumAppointments
    SumCompletedAppointments := acc.sumCompletedAppointments
    AverageAppointmentNumber := avgApptNum
    SameDayCloseRate := rollingSameDayCloseRate
    FirstTimeFixRate := firstTimeFixRateWeighted
    AvgAppointmentsPerCompletedCall := avgApptPerCompletedWeighted
    TotalFirstTimeFixes := cumulativeFirstTimeFixes
    TotalClosedCallsForFTF := cumulativeClosedCalls
    FirstTimeFixRate_RunningTotal := firstTimeFixRateRunningTotal
    TotalFollowUpAppointments := rollingTotalFollowUpAppointments
    TotalAppointments := totalAppointmentsToday
    RepeatDispatchRate := rollingRdr
    BatchCount := batches.length
    BatchMissing := if batchMissing then 1 else 0 }

/-- `app/services/hourly_aggregator.py::aggregate_batch_stats` as a pure
state transformer: skip when aggregation is disabled
(`HOURLY_AGGREGATION_ENABLED`, line 41) or a row for this `PeriodEnd`
already exists (lines 65-75); otherwise compute the aggregate row and
append it (validation at lines 427-434 only logs and is omitted). -/
def aggregate_batch_stats (hourlyEnabled : Bool) (db : StatsDB)
    (isRecyclerType : Bool) (lastAggregationTimestamp : Option Int)
    (currentBatchTimestamp : Int) : StatsDB × Bool :=
  if !hourlyEnabled then (db, false) else
  if db.batchTable.any (fun r => decide (r.PeriodEnd = currentBatchTimestamp)) then
    (db, false)
  else
    ({ db with batchTable := db.batchTable ++
        [aggRowFor db isRecyclerType lastAggregationTimestamp currentBatchTimestamp] },
     true)

/-! ## Weekly aggregation (`app/services/weekly_aggregator.py::aggregate_weekly_stats`) -/

/-- One row of the daily summary table, as selected at lines 64-80. -/
structure DailyRow where
  Date : Int
  Timestamp : Int
  AvgApptNum_OpenAtEndOfDay : Rat
  AvgApptNum_ClosedToday : Rat
  TotalOpenAtEndOfDay : Int
  TotalClosedEOD : Int
  TotalSameDayClosures : Int
  TotalCallsWithMultiAppt : Int
  TotalNotServicedYet : Int
  FirstTimeFixRate_RunningTotal : Rat
  RepeatDispatchRate : Rat

/-- One row of the weekly summary table (`INSERT` at lines 145-166). -/
structure WeeklyRow where
  WeekStartDate : Int
  WeekEndDate : Int
  Year : Int
  WeekNumber : Int
  Timestamp : Int
  AvgApptNum_OpenAtEndOfWeek : Rat
  AvgApptNum_ClosedThisWeek : Rat
  TotalOpenAtEndOfWeek : Int
  TotalClosedThisWeek : Int
  TotalSameDayClosures : Int
  TotalCallsWithMultiAppt : Int
  TotalNotServicedYet : Int
  FirstTimeFixRate_RunningTotal : Rat
  RepeatDispatchRate : Rat
  DayCount : Int

/-- The loop-carried accumulators of the daily loop (lines 95-135):
snapshot and rolling fields keep the latest day's value, closed counts and
completed-appointment sums accumulate. -/
structure WeeklyAcc where
  totalOpenAtEndOfWeek : Int
  avgApptNumOpenEow : Rat
  totalClosedThisWeek : Int
  totalSameDayClosures : Int
  totalCallsWithMultiAppt : Int
  totalNotServicedYet : Int
  sumAppointmentsClosed : Int
  firstTimeFixRateRunningTotal : Rat
  repeatDispatchRate : Rat

/-- One iteration of `for daily_stat in daily_stats:`. -/
def weeklyStep (acc : WeeklyAcc) (d : DailyRow) : WeeklyAcc :=
  { totalOpenAtEndOfWeek := d.TotalOpenAtEndOfDay
    avgApptNumOpenEow := d.AvgApptNum_OpenAtEndOfDay
    totalClosedThisWeek := acc.totalClosedThisWeek + d.TotalClosedEOD
    totalSameDayClosures := d.TotalSameDayClosures
    totalCallsWithMultiAppt := d.TotalCallsWithMultiAppt
    totalNotServicedYet := d.TotalNotServicedYet
    sumAppointmentsClosed :=
      if 0 < d.TotalClosedEOD ∧ 0 < d.AvgApptNum_ClosedToday then
        acc.sumAppointmentsClosed + pyInt (d.AvgApptNum_ClosedToday * (d.TotalClosedEOD : Rat))
      else acc.sumAppointmentsClosed
    firstTimeFixRateRunningTotal := d.FirstTimeFixRate_RunningTotal
    repeatDispatchRate := d.RepeatDispatchRate }

/-- The daily summaries selected for the week (lines 63-84): daily rows
with `Date` within the week bounds, ordered by `Date` ascending. -/
def dailyStatsForWeek (dailyTable : List DailyRow) (weekStart weekEnd : Int) :
    List DailyRow :=
  (dailyTable.filter (fun d => decide (weekStart ≤ d.Date ∧ d.Date ≤ weekEnd))).insertionSort
    (fun a b => a.Date ≤ b.Date)

/-- The weekly summary row computed from the week's daily stats (lines
90-166, between the guards and the `INSERT`). -/
def weeklyRowFor (weekStartsOn : String) (dailyTable : List DailyRow)
    (latestPushedAt : Int) : WeeklyRow :=
  let currentDateCst := latestPushedAt.ediv 1440
  let wse := get_week_start_end currentDateCst weekStartsOn
  let yw := get_week_number currentDateCst weekStartsOn
  let dailyStats : List DailyRow := dailyStatsForWeek dailyTable wse.1 wse.2
  let acc : WeeklyAcc := dailyStats.foldl weeklyStep
    { totalOpenAtEndOfWeek := 0, avgApptNumOpenEow := 0, totalClosedThisWeek := 0,
      totalSameDayClosures := 0, totalCallsWithMultiAppt := 0, totalNotServicedYet := 0,
      sumAppointmentsClosed := 0, firstTimeFixRateRunningTotal := 0, repeatDispatchRate := 0 }
  let avgApptClosedWeek : Rat :=
    if 0 < acc.totalClosedThisWeek then
      (acc.sumAppointmentsClosed : Rat) / (acc.totalClosedThisWeek : Rat)
    else 0
  { WeekStartDate := wse.1
    WeekEndDate := wse.2
    Year := yw.1
    WeekNumber := yw.2
    Timestamp := latestPushedAt
    AvgApptNum_OpenAtEndOfWeek := acc.avgApptNumOpenEow
    AvgApptNum_ClosedThisWeek := avgApptClosedWeek
    TotalOpenAtEndOfWeek := acc.totalOpenAtEndOfWeek
    TotalClosedThisWeek := acc.totalClosedThisWeek
    TotalSameDayClosures := acc.totalSameDayClosures
    TotalCallsWithMultiAppt := acc.totalCallsWithMultiAppt
    TotalNotServicedYet := acc.totalNotServicedYet
    FirstTimeFixRate_RunningTotal := acc.firstTimeFixRateRunningTotal
    RepeatDispatchRate := acc.repeatDispatchRate
    DayCount := dailyStats.length }

/-- `app/services/weekly_aggregator.py::aggregate_weekly_stats` as a pure
state transformer over the weekly table: skip when weekly aggregation is
disabled (`WEEKLY_AGGREGATION_ENABLED`), when a row for this
`(Year, WeekNumber)` already exists (lines 51-61), or when the week has no
daily stats (lines 86-88); otherwise append the weekly summary row. -/
def aggregate_weekly_stats (weeklyEnabled : Bool) (weekStartsOn : String)
    (dailyTable : List DailyRow) (weeklyTable : List WeeklyRow)
    (latestPushedAt : Int) : List WeeklyRow × Bool :=
  if !weeklyEnabled then (weeklyTable, false) else
  let currentDateCst := latestPushedAt.ediv 1440
  let wse := get_week_start_end currentDateCst weekStartsOn
  let yw := get_week_number currentDateCst weekStartsOn
  if weeklyTable.any (fun r => decide (r.Year = yw.1) && decide (r.WeekNumber = yw.2)) then
    (weeklyTable, false)
  else if (dailyStatsForWeek dailyTable wse.1 wse.2).isEmpty then (weeklyTable, false)
  else (weeklyTable ++ [weeklyRowFor weekStartsOn dailyTable latestPushedAt], true)


/-! ## Helper lemmas on dict lookup -/

lemma lookup_isSome_iff_mem_keys {β : Type} (k : String) (l : List (String × β)) :
    (List.lookup k l).isSome ↔ k ∈ l.map Prod.fst := by
  induction l with
  | nil => simp
  | cons a t ih =>
      rcases a with ⟨x, v⟩
      by_cases h : k = x
      · subst h
        simp [List.lookup_cons]
      · have hb : (k == x) = false := by simpa using h
        simp [List.lookup_cons, hb, h, ih]

lemma mem_of_lookup_eq_some {β : Type} {k : String} {v : β} {l : List (String × β)}
    (h : List.lookup k l = some v) : (k, v) ∈ l := by
  induction l with
  | nil => simp at h
  | cons a t ih =>
      rcases a with ⟨x, w⟩
      rw [List.lookup_cons] at h
      by_cases hk : k = x
      · subst hk
        simp at h
        simp [h]
      · have hb : (k == x) = false := by simpa using hk
        rw [hb] at h
        simp [ih h]

lemma lookup_eq_some_of_mem {β : Type} {l : List (String × β)}
    (hnd : (l.map Prod.fst).Nodup) {k : String} {v : β} (hm : (k, v) ∈ l) :
    List.lookup k l = some v := by
  induction l with
  | nil => simp at hm
  | cons a t ih =>
      rcases a with ⟨x, w⟩
      simp only [List.map_cons, List.nodup_cons] at hnd
      rcases List.mem_cons.mp hm with h | h
      · cases h
        simp [List.lookup_cons]
      · have hne : k ≠ x := by
          rintro rfl
          exact hnd.1 (List.mem_map.mpr ⟨(k, v), h, rfl⟩)
        have hb : (k == x) = false := by simpa using hne
        rw [List.lookup_cons, hb]
        exact ih hnd.2 h

/-! ## C7 - C9: period clock claims -/

/-- C7: for every instant, `is_end_of_day_cst` returns true exactly when the
instant's CST clock time is at or past (in clock order) the trigger time
obtained by adding 30 minutes to the configured EOD time, with minute
overflow correctly rolling into the next hour (mod 24, hence into the next
day for an EOD of 23:xx); in particular with EOD 23:59 the trigger is
00:29, an instant at 00:05 yields false and one at 00:35 yields true. -/
theorem is_end_of_day_cst_trigger_spec :
    (∀ eodHour eodMinute hour minute : Nat, eodHour < 24 → eodMinute < 60 →
      (is_end_of_day_cst eodHour eodMinute hour minute = true ↔
        ((eodHour + (eodMinute + 30) / 60) % 24 < hour ∨
          (hour = (eodHour + (eodMinute + 30) / 60) % 24 ∧
            (eodMinute + 30) % 60 ≤ minute)))) ∧
    is_end_of_day_cst 23 59 0 5 = false ∧ is_end_of_day_cst 23 59 0 35 = true := by
  refine ⟨?_, by decide, by decide⟩
  intro H M h m hH hM
  simp only [is_end_of_day_cst]
  by_cases h60 : 60 ≤ M + 30 <;>
    simp only [h60, if_true, if_false] <;>
    split_ifs <;>
    simp only [decide_eq_true_eq, Bool.true_eq, Bool.false_eq, true_iff, false_iff,
      iff_true, iff_false] <;>
    omega

/-- Witness for C7: EOD 06:45 gives trigger 07:15; the instant 07:20 is at
or past it and the equivalence evaluates the function to true there. -/
theorem is_end_of_day_cst_trigger_spec_witness :
    is_end_of_day_cst 6 45 7 20 = true :=
  (is_end_of_day_cst_trigger_spec.1 6 45 7 20 (by decide) (by decide)).mpr (by decide)

/-- C8 counterexample: with EOD configured 17:00 and a Sunday-start week,
the instant Saturday 18:00 (date ordinal 6 is a Saturday: weekday 5) is at
or past the raw EOD time (18:00 is after 17:00 in clock order), yet
`is_end_of_week_cst` returns false, because the source requires the hour to
be exactly the EOD hour. -/
theorem is_end_of_week_cst_raw_eod_counterexample :
    is_end_of_week_cst 17 0 "Sunday" 6 18 0 = false ∧
    pyWeekday 6 = 5 ∧ ((17 : Nat) < 18 ∨ ((18 : Nat) = 17 ∧ (0 : Nat) ≤ 0)) := by
  decide

/-- C8 (amended): `is_end_of_week_cst` returns true iff the CST weekday is
the day preceding the configured week-start day (Saturday for a
Sunday-start week, Sunday otherwise) and the clock reads exactly the
configured EOD hour with minute at or past the EOD minute; when the
configured EOD hour is 23 (the default 23:59), this coincides with being at
or past the raw EOD time in clock order. -/
theorem is_end_of_week_cst_characterization :
    ∀ (eodHour eodMinute : Nat) (weekStartsOn : String) (d : Int) (hour minute : Nat),
      (is_end_of_week_cst eodHour eodMinute weekStartsOn d hour minute = true ↔
        ((if weekStartsOn = "Sunday" then pyWeekday d = 5 else pyWeekday d = 6) ∧
          hour = eodHour ∧ eodMinute ≤ minute)) ∧
      (eodHour = 23 → hour < 24 →
        (is_end_of_week_cst eodHour eodMinute weekStartsOn d hour minute = true ↔
          ((if weekStartsOn = "Sunday" then pyWeekday d = 5 else pyWeekday d = 6) ∧
            (23 < hour ∨ (hour = 23 ∧ eodMinute ≤ minute))))) := by
  intro H M ws d h m
  have key : is_end_of_week_cst H M ws d h m = true ↔
      ((if ws = "Sunday" then pyWeekday d = 5 else pyWeekday d = 6) ∧ h = H ∧ M ≤ m) := by
    simp only [is_end_of_week_cst, Bool.and_eq_true, decide_eq_true_eq]
    split_ifs <;> simp_all
  refine ⟨key, ?_⟩
  rintro rfl h24
  rw [key]
  constructor <;> rintro ⟨h1, h2⟩ <;> exact ⟨h1, by omega⟩

/-- Witness for C8 (amended): Saturday (ordinal 6) at 23:59 with the
default EOD 23:59 and Sunday-start week is an end of week. -/
theorem is_end_of_week_cst_characterization_witness :
    is_end_of_week_cst 23 59 "Sunday" 6 23 59 = true :=
  ((is_end_of_week_cst_characterization 23 59 "Sunday" 6 23 59).2 rfl (by decide)).mpr
    (by decide)

/-- C9 counterexample: for January 1 2022 (ordinal 738156, a Saturday) with
a Sunday-start week, the computed week start is December 26 2021 (ordinal
738150), so the returned year is adjusted down to 2021 - but the returned
week index is 0, while counting 7-day blocks from January 1 of the
*returned* year 2021 would give 52. -/
theorem get_week_number_returned_year_counterexample :
    get_week_number 738156 "Sunday" = (2021, 0) ∧
    (get_week_start_end 738156 "Sunday").1 = 738150 ∧
    yearOfOrdinal 738150 = 2021 ∧
    ((get_week_start_end 738156 "Sunday").1 - jan1Ordinal 2021).ediv 7 + 1 = 52 ∧
    (0 : Int) ≠ 52 := by
  refine ⟨?_, ?_, ?_, ?_, ?_⟩ <;> decide

/-- C9 (amended): `get_week_number` returns `(year, week_index)` where
`week_index` counts 7-day blocks of the computed week start from January 1
of the *input* date's year (so the week containing January 1 of the input
year may get index 0 or 1, and earlier week starts negative indices), and
the returned year is adjusted downward to the week start's year exactly
when the week start falls in a year before the input date's. -/
theorem get_week_number_block_count_spec :
    ∀ (d : Int) (weekStartsOn : String),
      jan1Ordinal (yearOfOrdinal d) + 7 * ((get_week_number d weekStartsOn).2 - 1) ≤
          (get_week_start_end d weekStartsOn).1 ∧
      (get_week_start_end d weekStartsOn).1 <
          jan1Ordinal (yearOfOrdinal d) + 7 * (get_week_number d weekStartsOn).2 ∧
      (get_week_number d weekStartsOn).1 =
        (if yearOfOrdinal (get_week_start_end d weekStartsOn).1 < yearOfOrdinal d
          then yearOfOrdinal (get_week_start_end d weekStartsOn).1 else yearOfOrdinal d) := by
  intro d ws
  simp only [get_week_number]
  generalize (get_week_start_end d ws).1 = W
  generalize jan1Ordinal (yearOfOrdinal d) = J
  generalize yearOfOrdinal W = Y1
  generalize yearOfOrdinal d = Y2
  have h1 : 7 * ((W - J).ediv 7) + (W - J).emod 7 = W - J := Int.ediv_add_emod _ _
  have h2 : 0 ≤ (W - J).emod 7 := Int.emod_nonneg _ (by norm_num)
  have h3 : (W - J).emod 7 < 7 := Int.emod_lt_of_pos _ (by norm_num)
  split_ifs <;> simp <;> omega

/-! ## C1: closed / newly-opened partition -/

/-- C1: for every pair of (deduplicated, category-filtered) snapshots, when
the previous snapshot is non-empty the closed-call set is exactly
`keys(previous) - keys(latest)` and the newly-opened set exactly
`keys(latest) - keys(previous)`, so the closed set is disjoint from the
latest keys, the newly-opened set is disjoint from the previous keys, and
`|closed| + |previous ∩ latest| = |previous|`; when the previous snapshot
is empty the closed set is empty and the newly-opened set is all of the
latest keys. -/
theorem closed_open_partition_spec :
    ∀ (previousFiltered latestFiltered : CallMap),
      (previousFiltered ≠ [] →
        closedCallIDs previousFiltered latestFiltered =
            keysFinset previousFiltered \ keysFinset latestFiltered ∧
        newlyOpenedCallIDs previousFiltered latestFiltered =
            keysFinset latestFiltered \ keysFinset previousFiltered ∧
        Disjoint (closedCallIDs previousFiltered latestFiltered)
          (keysFinset latestFiltered) ∧
        Disjoint (newlyOpenedCallIDs previousFiltered latestFiltered)
          (keysFinset previousFiltered) ∧
        (closedCallIDs previousFiltered latestFiltered).card +
            (keysFinset previousFiltered ∩ keysFinset latestFiltered).card =
          (keysFinset previousFiltered).card) ∧
      (previousFiltered = [] →
        closedCallIDs previousFiltered latestFiltered = ∅ ∧
        newlyOpenedCallIDs previousFiltered latestFiltered = keysFinset latestFiltered) := by
  intro prevF latF
  constructor
  · intro h
    simp only [closedCallIDs, newlyOpenedCallIDs, if_pos h, ne_eq, h, not_false_eq_true]
    exact ⟨rfl, rfl, Finset.sdiff_disjoint, Finset.sdiff_disjoint,
      Finset.card_sdiff_add_card_inter _ _⟩
  · rintro rfl
    exact ⟨by simp [closedCallIDs], by simp [newlyOpenedCallIDs]⟩

/-- Witness for C1 at a concrete snapshot pair: previous `{A, B}`, latest
`{B, C}`; one closed call and one key in common. -/
theorem closed_open_partition_spec_witness :
    (closedCallIDs
        [("A", ⟨1, "A", "S", 1, none, none, none⟩), ("B", ⟨2, "B", "S", 1, none, none, none⟩)]
        [("B", ⟨3, "B", "S", 2, none, none, none⟩), ("C", ⟨4, "C", "S", 1, none, none, none⟩)]).card +
      (keysFinset
          [("A", ⟨1, "A", "S", 1, none, none, none⟩), ("B", ⟨2, "B", "S", 1, none, none, none⟩)] ∩
        keysFinset
          [("B", ⟨3, "B", "S", 2, none, none, none⟩), ("C", ⟨4, "C", "S", 1, none, none, none⟩)]).card =
    (keysFinset
        [("A", ⟨1, "A", "S", 1, none, none, none⟩), ("B", ⟨2, "B", "S", 1, none, none, none⟩)]).card :=
  ((closed_open_partition_spec _ _).1 (by decide)).2.2.2.2

/-! ## C10: equipment-type filter partition -/

/-- C10: for every calls mapping, the recycler filter and the non-recycler
filter have disjoint key sets whose union is exactly the mapping's key set,
every retained key looks up to the identical record of the input mapping,
and a record with a missing (or empty) equipment id always lands in the
non-recycler partition. -/
theorem filter_by_equipment_type_partition :
    ∀ (d : CallMap), (keysList d).Nodup →
      Disjoint (keysFinset (filter_by_equipment_type d true))
        (keysFinset (filter_by_equipment_type d false)) ∧
      keysFinset (filter_by_equipment_type d true) ∪
          keysFinset (filter_by_equipment_type d false) = keysFinset d ∧
      (∀ (b : Bool) (k : String) (r : SCRecord),
        List.lookup k (filter_by_equipment_type d b) = some r →
          List.lookup k d = some r) ∧
      (∀ (k : String) (r : SCRecord), List.lookup k d = some r →
        r.equipmentID = none ∨ r.equipmentID = some "" →
          k ∈ keysFinset (filter_by_equipment_type d false)) := by
  intro d hnd
  refine ⟨?_, ?_, ?_, ?_⟩
  · rw [Finset.disjoint_left]
    intro k hk1 hk2
    simp only [keysFinset, filter_by_equipment_type, List.mem_toFinset, List.mem_map,
      List.mem_filter] at hk1 hk2
    obtain ⟨e1, ⟨he1, hp1⟩, hk1⟩ := hk1
    obtain ⟨e2, ⟨he2, hp2⟩, hk2⟩ := hk2
    have : e1 = e2 := List.inj_on_of_nodup_map hnd he1 he2 (hk1.trans hk2.symm)
    subst this
    simp only [beq_iff_eq] at hp1 hp2
    rw [← hp1] at hp2
    exact Bool.noConfusion hp2
  · ext k
    simp only [Finset.mem_union, keysFinset, filter_by_equipment_type, List.mem_toFinset,
      List.mem_map, List.mem_filter]
    constructor
    · rintro (⟨e, ⟨he, _⟩, hk⟩ | ⟨e, ⟨he, _⟩, hk⟩) <;> exact ⟨e, he, hk⟩
    · rintro ⟨e, he, hk⟩
      cases hr : is_recycler (equipmentIdOf e.2)
      · exact Or.inr ⟨e, ⟨he, by simp [hr]⟩, hk⟩
      · exact Or.inl ⟨e, ⟨he, by simp [hr]⟩, hk⟩
  · intro b k r h
    have hm := mem_of_lookup_eq_some h
    rw [filter_by_equipment_type, List.mem_filter] at hm
    exact lookup_eq_some_of_mem hnd hm.1
  · intro k r h hnull
    have hm := mem_of_lookup_eq_some h
    have hemp : equipmentIdOf r = "" := by
      rcases hnull with h1 | h1 <;> simp [equipmentIdOf, h1]
    have hrec : is_recycler (equipmentIdOf r) = false := by
      rw [hemp]
      rfl
    simp only [keysFinset, filter_by_equipment_type, List.mem_toFinset, List.mem_map]
    exact ⟨(k, r), List.mem_filter.mpr ⟨hm, by simp [hrec]⟩, rfl⟩

/-- Witness for C10 at a concrete mapping with one recycler (prefix N4R),
one smart safe, and one record with empty equipment id. -/
theorem filter_by_equipment_type_partition_witness :
    keysFinset (filter_by_equipment_type
        [("A", ⟨1, "A", "S", 1, none, some "N4R7", none⟩),
         ("B", ⟨2, "B", "S", 1, none, some "X9", none⟩),
         ("C", ⟨3, "C", "S", 1, none, some "", none⟩)] true) ∪
      keysFinset (filter_by_equipment_type
        [("A", ⟨1, "A", "S", 1, none, some "N4R7", none⟩),
         ("B", ⟨2, "B", "S", 1, none, some "X9", none⟩),
         ("C", ⟨3, "C", "S", 1, none, some "", none⟩)] false) =
    keysFinset
        [("A", ⟨1, "A", "S", 1, none, some "N4R7", none⟩),
         ("B", ⟨2, "B", "S", 1, none, some "X9", none⟩),
         ("C", ⟨3, "C", "S", 1, none, some "", none⟩)] :=
  (filter_by_equipment_type_partition _ (by decide)).2.1

/-! ## C4: repeat-dispatch metrics -/

lemma foldl_insert_toFinset (l : List Int) (s : Finset Int) :
    l.foldl (fun s a => insert a s) s = s ∪ l.toFinset := by
  induction l generalizing s with
  | nil => simp
  | cons a t ih =>
      rw [List.foldl_cons, ih, List.toFinset_cons]
      ext x
      simp only [Finset.mem_union, Finset.mem_insert, List.mem_toFinset]
      tauto

/-- C4: for every (deduplicated) snapshot pair, the follow-up count is the
number of call ids present in both snapshots whose appointment number
strictly increased and whose latest appointment number exceeds 1 (zero when
the previous snapshot is empty); the unique-appointment count is the number
of distinct appointment values appearing in the latest snapshot (not the
number of entities); and the repeat-dispatch rate is follow-ups divided by
the unique-appointment count, zero when that count is zero. -/
theorem repeat_dispatch_spec :
    ∀ (previousFiltered latestFiltered : CallMap),
      (keysList latestFiltered).Nodup →
      (previousFiltered ≠ [] →
        totalFollowUpAppointments previousFiltered latestFiltered =
          ((keysFinset latestFiltered ∩ keysFinset previousFiltered).filter
            (fun k => followUpTest previousFiltered latestFiltered k = true)).card) ∧
      (previousFiltered = [] →
        totalFollowUpAppointments previousFiltered latestFiltered = 0) ∧
      totalAppointmentsRDR latestFiltered =
        ((latestFiltered.map (fun e => e.2.appointment)).toFinset).card ∧
      (totalAppointmentsRDR latestFiltered ≠ 0 →
        repeatDispatchRate previousFiltered latestFiltered =
          (totalFollowUpAppointments previousFiltered latestFiltered : Rat) /
            (totalAppointmentsRDR latestFiltered : Rat)) ∧
      (totalAppointmentsRDR latestFiltered = 0 →
        repeatDispatchRate previousFiltered latestFiltered = 0) := by
  intro pf lf hnd
  refine ⟨?_, ?_, ?_, ?_, ?_⟩
  · intro hne
    rw [totalFollowUpAppointments, if_pos hne]
    have hfn : ((keysList lf).filter (followUpTest pf lf)).Nodup := hnd.filter _
    rw [← List.toFinset_card_of_nodup hfn, List.toFinset_filter]
    congr 1
    ext k
    simp only [Finset.mem_filter, Finset.mem_inter, keysFinset]
    constructor
    · rintro ⟨hk, hp⟩
      refine ⟨⟨hk, ?_⟩, hp⟩
      cases hpf : List.lookup k pf with
      | none => rw [followUpTest, hpf] at hp; simp at hp
      | some p =>
          have : (List.lookup k pf).isSome := by rw [hpf]; rfl
          exact List.mem_toFinset.mpr ((lookup_isSome_iff_mem_keys k pf).mp this)
    · rintro ⟨⟨hk, _⟩, hp⟩
      exact ⟨hk, hp⟩
  · intro he
    rw [totalFollowUpAppointments, if_neg (by simp [he])]
  · rw [totalAppointmentsRDR, uniqueAppointmentNumbers, foldl_insert_toFinset]
    simp
  · intro hne
    rw [repeatDispatchRate, if_pos (Nat.pos_of_ne_zero hne)]
  · intro he
    rw [repeatDispatchRate, if_neg (by omega)]

/-- Witness for C4: entity A progressed from appointment 1 to 2 while B is
new at appointment 1; the rate is follow-ups over distinct appointment
values. -/
theorem repeat_dispatch_spec_witness :
    repeatDispatchRate [("A", ⟨1, "A", "S", 1, none, none, none⟩)]
        [("A", ⟨2, "A", "S", 2, none, none, none⟩), ("B", ⟨3, "B", "S", 1, none, none, none⟩)] =
      (totalFollowUpAppointments [("A", ⟨1, "A", "S", 1, none, none, none⟩)]
          [("A", ⟨2, "A", "S", 2, none, none, none⟩), ("B", ⟨3, "B", "S", 1, none, none, none⟩)] : Rat) /
        (totalAppointmentsRDR
          [("A", ⟨2, "A", "S", 2, none, none, none⟩), ("B", ⟨3, "B", "S", 1, none, none, none⟩)] : Rat) :=
  (repeat_dispatch_spec _ _ (by decide)).2.2.2.1 (by decide)

/-! ## C2: rate totality -/

lemma guard_div_nonneg (c : Prop) [Decidable c] (a b : Nat) :
    (0 : Rat) ≤ (if c then (a : Rat) / (b : Rat) else 0) := by
  split
  · exact div_nonneg (Nat.cast_nonneg a) (Nat.cast_nonneg b)
  · exact le_refl 0

/-- C2: for every input to the batch-diff computation, each rate field of
the produced batch metric record equals 0 whenever its denominator (total
closed calls for the same-day-close, first-time-fix and
average-appointments rates; newly-opened count for the 14-day reopen rate;
unique-appointment count for the repeat-dispatch rate) is 0, and every rate
is a well-defined non-negative rational (the average-appointments rate
under the data-model invariant that appointment numbers are at least 1) -
never NaN, never an error. -/
theorem rate_totality :
    ∀ (latestCalls previousCalls : CallMap) (latestPushedAt latestBatchID : Int)
      (history : List HistoryRow) (isRecyclerType : Bool),
      (((process_equipment_type_stats latestCalls previousCalls latestPushedAt
          latestBatchID history isRecyclerType).1.callsClosedSinceLastBatch = 0 →
        (process_equipment_type_stats latestCalls previousCalls latestPushedAt
          latestBatchID history isRecyclerType).1.sameDayCloseRate = 0 ∧
        (process_equipment_type_stats latestCalls previousCalls latestPushedAt
          latestBatchID history isRecyclerType).1.firstTimeFixRate = 0 ∧
        (process_equipment_type_stats latestCalls previousCalls latestPushedAt
          latestBatchID history isRecyclerType).1.avgAppointmentsPerCompletedCall = 0)) ∧
      ((newlyOpenedCallIDs (previousFilteredOf previousCalls isRecyclerType)
          (filter_by_equipment_type latestCalls isRecyclerType)).card = 0 →
        (process_equipment_type_stats latestCalls previousCalls latestPushedAt
          latestBatchID history isRecyclerType).1.fourteenDayReopenRate = 0) ∧
      ((process_equipment_type_stats latestCalls previousCalls latestPushedAt
          latestBatchID history isRecyclerType).1.totalAppointments = 0 →
        (process_equipment_type_stats latestCalls previousCalls latestPushedAt
          latestBatchID history isRecyclerType).1.repeatDispatchRate = 0) ∧
      0 ≤ (process_equipment_type_stats latestCalls previousCalls latestPushedAt
          latestBatchID history isRecyclerType).1.sameDayCloseRate ∧
      0 ≤ (process_equipment_type_stats latestCalls previousCalls latestPushedAt
          latestBatchID history isRecyclerType).1.firstTimeFixRate ∧
      0 ≤ (process_equipment_type_stats latestCalls previousCalls latestPushedAt
          latestBatchID history isRecyclerType).1.fourteenDayReopenRate ∧
      0 ≤ (process_equipment_type_stats latestCalls previousCalls latestPushedAt
          latestBatchID history isRecyclerType).1.repeatDispatchRate ∧
      ((∀ e ∈ previousCalls, 1 ≤ e.2.appointment) →
        0 ≤ (process_equipment_type_stats latestCalls previousCalls latestPushedAt
          latestBatchID history isRecyclerType).1.avgAppointmentsPerCompletedCall) := by
  intro lc pc t bid hist b
  set lf := filter_by_equipment_type lc b with hlf
  set pf := previousFilteredOf pc b with hpf
  refine ⟨?_, ?_, ?_, ?_, ?_, ?_, ?_, ?_⟩
  · intro h
    have h0 : totalClosed pf lf = 0 := h
    exact ⟨by simp [show (process_equipment_type_stats lc pc t bid hist b).1.sameDayCloseRate =
        sameDayCloseRate pf lf t from rfl, sameDayCloseRate, h0],
      by simp [show (process_equipment_type_stats lc pc t bid hist b).1.firstTimeFixRate =
        firstTimeFixRate pf lf from rfl, firstTimeFixRate, h0],
      by simp [show (process_equipment_type_stats lc pc t bid hist b).1.avgAppointmentsPerCompletedCall =
        avgApptPerCompleted pf lf from rfl, avgApptPerCompleted, h0]⟩
  · intro h
    have h0 : newlyOpenedCallIDs pf lf = ∅ := Finset.card_eq_zero.mp h
    show reopenRate pf lf t hist = 0
    rw [reopenRate, if_neg (by simp [h0])]
  · intro h
    have h0 : totalAppointmentsRDR lf = 0 := h
    show repeatDispatchRate pf lf = 0
    rw [repeatDispatchRate, if_neg (by omega)]
  · exact guard_div_nonneg _ _ _
  · exact guard_div_nonneg _ _ _
  · exact guard_div_nonneg _ _ _
  · exact guard_div_nonneg _ _ _
  · intro hyp
    show 0 ≤ avgApptPerCompleted pf lf
    rw [avgApptPerCompleted]
    split
    · apply div_nonneg _ (Nat.cast_nonneg _)
      have hsum : 0 ≤ completedAppointmentSum pf lf := by
        apply Finset.sum_nonneg
        intro k hk
        cases hl : List.lookup k pf with
        | none => exact le_refl 0
        | some r =>
            have hm := mem_of_lookup_eq_some hl
            have hmem : (k, r) ∈ pc := by
              rw [hpf, previousFilteredOf] at hm
              split at hm
              · exact (List.mem_filter.mp hm).1
              · simp at hm
            have h1 : 1 ≤ r.appointment := hyp (k, r) hmem
            show (0 : Int) ≤ r.appointment
            omega
      exact_mod_cast hsum
    · exact le_refl 0

/-- Witness for C2: on an empty input batch every denominator is 0 and the
rates produced by the engine are all 0. -/
theorem rate_totality_witness :
    (process_equipment_type_stats [] [] 0 0 [] true).1.sameDayCloseRate = 0 ∧
    (process_equipment_type_stats [] [] 0 0 [] true).1.fourteenDayReopenRate = 0 ∧
    (process_equipment_type_stats [] [] 0 0 [] true).1.repeatDispatchRate = 0 :=
  ⟨((rate_totality [] [] 0 0 [] true).1 (by decide)).1,
   (rate_totality [] [] 0 0 [] true).2.1 (by decide),
   (rate_totality [] [] 0 0 [] true).2.2.1 (by decide)⟩


/-! ## C3: deduplication -/

lemma lookup_append (l m : CallMap) (k : String) :
    List.lookup k (l ++ m) = ((List.lookup k l).orElse (fun x => List.lookup k m)) := by
  induction l with
  | nil => simp
  | cons a t ih =>
      rcases a with ⟨x, v⟩
      by_cases h : k = x
      · subst h
        simp [List.lookup_cons]
      · have hb : (k == x) = false := by simpa using h
        simp [List.lookup_cons, hb, ih]

lemma contains_keys_iff (m : CallMap) (s : String) :
    (keysList m).contains s = true ↔ (List.lookup s m).isSome := by
  rw [List.elem_iff, keysList, lookup_isSome_iff_mem_keys]

lemma foldl_addIfAbsent_lookup (L : List SCRecord) (acc : CallMap) (k : String) :
    List.lookup k (L.foldl addIfAbsent acc) =
      ((List.lookup k acc).orElse
        (fun x => L.find? (fun r => r.serviceCallID == k))) := by
  induction L generalizing acc with
  | nil => cases hl : List.lookup k acc <;> simp [hl, Option.orElse]
  | cons r rs ih =>
      rw [List.foldl_cons, ih]
      rw [addIfAbsent]
      by_cases hc : (keysList acc).contains r.serviceCallID = true
      · rw [if_pos hc]
        rw [contains_keys_iff] at hc
        cases hl : List.lookup k acc with
        | some v => simp [hl, Option.orElse]
        | none =>
            have hne : (r.serviceCallID == k) = false := by
              rw [beq_eq_false_iff_ne]
              rintro rfl
              rw [hl] at hc
              simp at hc
            simp [hl, Option.orElse, List.find?_cons, hne]
      · rw [if_neg hc]
        rw [lookup_append]
        cases hl : List.lookup k acc with
        | some v => simp [hl, Option.orElse]
        | none =>
            by_cases hk : r.serviceCallID = k
            · subst hk
              simp [hl, Option.orElse, List.lookup_cons, List.find?_cons]
            · have hb : (k == r.serviceCallID) = false := by simpa using (Ne.symm hk)
              have hb2 : (r.serviceCallID == k) = false := by simpa using hk
              simp [hl, Option.orElse, List.lookup_cons, hb, List.find?_cons, hb2]

lemma deduplicate_records_lookup (L : List SCRecord) (k : String) :
    List.lookup k (deduplicate_records L) =
      (sortByIdDesc L).find? (fun r => r.serviceCallID == k) := by
  rw [deduplicate_records, foldl_addIfAbsent_lookup]
  simp


lemma foldl_addIfAbsent_keys_nodup (L : List SCRecord) (acc : CallMap)
    (h : (keysList acc).Nodup) : (keysList (L.foldl addIfAbsent acc)).Nodup := by
  induction L generalizing acc with
  | nil => exact h
  | cons r rs ih =>
      rw [List.foldl_cons]
      apply ih
      rw [addIfAbsent]
      split
      · exact h
      · rename_i hc
        rw [keysList, List.map_append, List.nodup_append]
        refine ⟨h, by simp, ?_⟩
        intro a ha hb
        simp only [List.map_cons, List.map_nil, List.mem_singleton] at hb
        subst hb
        exact hc (List.elem_iff.mpr ha)

lemma foldl_addIfAbsent_entry (L : List SCRecord) (acc : CallMap)
    (h : ∀ e ∈ acc, e.1 = e.2.serviceCallID) :
    ∀ e ∈ L.foldl addIfAbsent acc, e.1 = e.2.serviceCallID := by
  induction L generalizing acc with
  | nil => exact h
  | cons r rs ih =>
      rw [List.foldl_cons]
      apply ih
      rw [addIfAbsent]
      split
      · exact h
      · intro e he
        rcases List.mem_append.mp he with he | he
        · exact h e he
        · simp only [List.mem_singleton] at he
          subst he
          rfl

lemma sortByIdDesc_perm (L : List SCRecord) : (sortByIdDesc L).Perm L :=
  List.perm_insertionSort _ L

lemma sortByIdDesc_sorted (L : List SCRecord) :
    List.Pairwise (fun a b => b.id ≤ a.id) (sortByIdDesc L) := by
  letI : IsTotal SCRecord (fun a b => b.id ≤ a.id) := ⟨fun a b => le_total b.id a.id⟩
  letI : IsTrans SCRecord (fun a b => b.id ≤ a.id) :=
    ⟨fun a b c hab hbc => le_trans hbc hab⟩
  exact List.sorted_insertionSort _ L

lemma find?_max_of_sorted {p : SCRecord → Bool} {l : List SCRecord} {r : SCRecord}
    (hs : List.Pairwise (fun a b => b.id ≤ a.id) l) (hf : l.find? p = some r) :
    ∀ r2 ∈ l, p r2 = true → r2.id ≤ r.id := by
  induction l with
  | nil => simp at hf
  | cons a t ih =>
      rw [List.pairwise_cons] at hs
      rw [List.find?_cons] at hf
      cases hpa : p a with
      | true =>
          rw [hpa] at hf
          simp only [Option.some.injEq] at hf
          subst hf
          intro r2 hr2 hp2
          rcases List.mem_cons.mp hr2 with h | h
          · subst h
            exact le_refl _
          · exact hs.1 r2 h
      | false =>
          rw [hpa] at hf
          intro r2 hr2 hp2
          rcases List.mem_cons.mp hr2 with h | h
          · subst h
            rw [hpa] at hp2
            exact Bool.noConfusion hp2
          · exact ih hs.2 hf r2 h hp2

lemma find?_unique_match {l : List SCRecord}
    (hnd : (l.map (fun r => r.serviceCallID)).Nodup)
    {k : String} {r : SCRecord} (hr : r ∈ l) (hk : r.serviceCallID = k) :
    l.find? (fun x => x.serviceCallID == k) = some r := by
  induction l with
  | nil => simp at hr
  | cons a t ih =>
      simp only [List.map_cons, List.nodup_cons] at hnd
      rw [List.find?_cons]
      by_cases hpa : a.serviceCallID = k
      · have hb : (a.serviceCallID == k) = true := by simpa using hpa
        rw [hb]
        rcases List.mem_cons.mp hr with h | h
        · rw [h]
        · exfalso
          apply hnd.1
          rw [hpa, ← hk]
          exact List.mem_map.mpr ⟨r, h, rfl⟩
      · have hb : (a.serviceCallID == k) = false := by simpa using hpa
        rw [hb]
        rcases List.mem_cons.mp hr with h | h
        · exact absurd (h ▸ hk) hpa
        · exact ih hnd.2 h


/-- C3: `deduplicate_records` returns a mapping with exactly one entry per
distinct `Service_Call_ID` occurring in the input (keys are distinct and
the key set is the set of input `Service_Call_ID` values), the value at
each key is a record of the input carrying that id whose `ID` is greatest
among all input records sharing it, the empty input yields the empty
mapping, and deduplicating the mapping's values again yields the same
mapping (idempotence, as Python dict equality: same lookup at every key). -/
theorem deduplicate_records_spec (records : List SCRecord) :
    (keysList (deduplicate_records records)).Nodup ∧
    keysFinset (deduplicate_records records) =
      (records.map (fun r => r.serviceCallID)).toFinset ∧
    (∀ (k : String) (r : SCRecord),
      List.lookup k (deduplicate_records records) = some r →
        r ∈ records ∧ r.serviceCallID = k ∧
        ∀ r2 ∈ records, r2.serviceCallID = k → r2.id ≤ r.id) ∧
    deduplicate_records [] = [] ∧
    (∀ k : String,
      List.lookup k (deduplicate_records ((deduplicate_records records).map Prod.snd)) =
        List.lookup k (deduplicate_records records)) := by
  refine ⟨foldl_addIfAbsent_keys_nodup _ [] List.nodup_nil, ?_, ?_, rfl, ?_⟩
  · have h1 : ∀ k, (List.lookup k (deduplicate_records records)).isSome ↔
        ∃ r ∈ records, r.serviceCallID = k := by
      intro k
      rw [deduplicate_records_lookup]
      constructor
      · intro hs
        obtain ⟨x, hx, hb⟩ := List.find?_isSome.mp hs
        exact ⟨x, (sortByIdDesc_perm records).mem_iff.mp hx, by simpa using hb⟩
      · rintro ⟨r, hr, rfl⟩
        apply List.find?_isSome.mpr
        exact ⟨r, (sortByIdDesc_perm records).mem_iff.mpr hr, by simp⟩
    ext k
    rw [keysFinset, List.mem_toFinset, ← lookup_isSome_iff_mem_keys, h1,
      List.mem_toFinset]
    simp [List.mem_map]
  · intro k r h
    rw [deduplicate_records_lookup] at h
    refine ⟨(sortByIdDesc_perm records).mem_iff.mp (List.mem_of_find?_eq_some h),
      by simpa using List.find?_some h, ?_⟩
    intro r2 hr2 hk2
    exact find?_max_of_sorted (sortByIdDesc_sorted records) h r2
      ((sortByIdDesc_perm records).mem_iff.mpr hr2) (by simpa using hk2)
  · intro k
    have hinv : ∀ e ∈ deduplicate_records records, e.1 = e.2.serviceCallID :=
      foldl_addIfAbsent_entry _ [] (by simp)
    have hnd : (keysList (deduplicate_records records)).Nodup :=
      foldl_addIfAbsent_keys_nodup _ [] List.nodup_nil
    have hmapeq : ((deduplicate_records records).map Prod.snd).map
        (fun r => r.serviceCallID) = keysList (deduplicate_records records) := by
      rw [keysList, List.map_map]
      exact List.map_congr_left (fun e he => (hinv e he).symm)
    rw [deduplicate_records_lookup]
    cases hl : List.lookup k (deduplicate_records records) with
    | some r =>
        have hmem : (k, r) ∈ deduplicate_records records := mem_of_lookup_eq_some hl
        have hrV : r ∈ (deduplicate_records records).map Prod.snd :=
          List.mem_map.mpr ⟨(k, r), hmem, rfl⟩
        have hkr : r.serviceCallID = k := (hinv (k, r) hmem).symm
        have hndS : ((sortByIdDesc ((deduplicate_records records).map Prod.snd)).map
            (fun r => r.serviceCallID)).Nodup := by
          rw [((sortByIdDesc_perm _).map _).nodup_iff, hmapeq]
          exact hnd
        exact find?_unique_match hndS ((sortByIdDesc_perm _).mem_iff.mpr hrV) hkr
    | none =>
        apply List.find?_eq_none.mpr
        intro x hx
        intro hbx
        have hxV : x ∈ (deduplicate_records records).map Prod.snd :=
          (sortByIdDesc_perm _).mem_iff.mp hx
        obtain ⟨e, he, rfl⟩ := List.mem_map.mp hxV
        have heq : e.1 = k := by
          have h2 := hinv e he
          simp only [beq_iff_eq] at hbx
          rw [h2, hbx]
        have hkk : k ∈ keysList (deduplicate_records records) := by
          rw [← heq]
          exact List.mem_map.mpr ⟨e, he, rfl⟩
        have hsome := (lookup_isSome_iff_mem_keys k _).mpr hkk
        rw [hl] at hsome
        simp at hsome

/-- Witness for C3: among two records with `Service_Call_ID` "A" (IDs 1 and
3) and one with "B", the entry for "A" is the record with ID 3, which is a
maximal-ID holder of that id. -/
theorem deduplicate_records_spec_witness :
    (⟨3, "A", "S", 2, none, none, none⟩ : SCRecord) ∈
        [(⟨1, "A", "S", 1, none, none, none⟩ : SCRecord),
         ⟨3, "A", "S", 2, none, none, none⟩, ⟨2, "B", "S", 1, none, none, none⟩] ∧
    (⟨3, "A", "S", 2, none, none, none⟩ : SCRecord).serviceCallID = "A" ∧
    ∀ r2 ∈ [(⟨1, "A", "S", 1, none, none, none⟩ : SCRecord),
         ⟨3, "A", "S", 2, none, none, none⟩, ⟨2, "B", "S", 1, none, none, none⟩],
      r2.serviceCallID = "A" → r2.id ≤ (⟨3, "A", "S", 2, none, none, none⟩ : SCRecord).id :=
  (deduplicate_records_spec
      [⟨1, "A", "S", 1, none, none, none⟩, ⟨3, "A", "S", 2, none, none, none⟩,
       ⟨2, "B", "S", 1, none, none, none⟩]).2.2.1 "A" _ (by decide)


/-! ## C5 and C6: aggregation idempotency and missing-batch continuity -/

lemma aggRowFor_PeriodEnd (db : StatsDB) (b : Bool) (last : Option Int) (pe : Int) :
    (aggRowFor db b last pe).PeriodEnd = pe := rfl

lemma weeklyRowFor_Year (ws : String) (dt : List DailyRow) (t : Int) :
    (weeklyRowFor ws dt t).Year = (get_week_number (t.ediv 1440) ws).1 := rfl

lemma weeklyRowFor_WeekNumber (ws : String) (dt : List DailyRow) (t : Int) :
    (weeklyRowFor ws dt t).WeekNumber = (get_week_number (t.ediv 1440) ws).2 := rfl

/-- C5: when the batch-aggregate table already holds a row whose
`PeriodEnd` equals the current batch timestamp, `aggregate_batch_stats`
inserts nothing, leaves all tables unchanged and returns `false`; starting
from a state with no row for that key, running it twice leaves exactly one
committed row for the key, the second run being a skip.  The same holds for
`aggregate_weekly_stats` with the `(Year, WeekNumber)` key.  Never an
error, never an overwrite. -/
theorem aggregate_idempotent_skip :
    ∀ (db : StatsDB) (isRecyclerType : Bool) (lastAggregationTimestamp : Option Int)
      (currentBatchTimestamp : Int) (weekStartsOn : String) (dailyTable : List DailyRow)
      (weeklyTable : List WeeklyRow) (latestPushedAt : Int),
      ((∃ r ∈ db.batchTable, r.PeriodEnd = currentBatchTimestamp) →
        aggregate_batch_stats true db isRecyclerType lastAggregationTimestamp
          currentBatchTimestamp = (db, false)) ∧
      ((db.batchTable.filter
          (fun r => decide (r.PeriodEnd = currentBatchTimestamp))).length = 0 →
        (aggregate_batch_stats true db isRecyclerType lastAggregationTimestamp
            currentBatchTimestamp).2 = true ∧
        ((aggregate_batch_stats true db isRecyclerType lastAggregationTimestamp
            currentBatchTimestamp).1.batchTable.filter
          (fun r => decide (r.PeriodEnd = currentBatchTimestamp))).length = 1 ∧
        aggregate_batch_stats true
            (aggregate_batch_stats true db isRecyclerType lastAggregationTimestamp
              currentBatchTimestamp).1 isRecyclerType lastAggregationTimestamp
            currentBatchTimestamp =
          ((aggregate_batch_stats true db isRecyclerType lastAggregationTimestamp
              currentBatchTimestamp).1, false)) ∧
      ((∃ r ∈ weeklyTable,
          r.Year = (get_week_number (latestPushedAt.ediv 1440) weekStartsOn).1 ∧
          r.WeekNumber = (get_week_number (latestPushedAt.ediv 1440) weekStartsOn).2) →
        aggregate_weekly_stats true weekStartsOn dailyTable weeklyTable latestPushedAt =
          (weeklyTable, false)) ∧
      ((weeklyTable.filter (fun r =>
          decide (r.Year = (get_week_number (latestPushedAt.ediv 1440) weekStartsOn).1) &&
            decide (r.WeekNumber =
              (get_week_number (latestPushedAt.ediv 1440) weekStartsOn).2))).length = 0 →
        ((aggregate_weekly_stats true weekStartsOn dailyTable weeklyTable
            latestPushedAt).1.filter (fun r =>
          decide (r.Year = (get_week_number (latestPushedAt.ediv 1440) weekStartsOn).1) &&
            decide (r.WeekNumber =
              (get_week_number (latestPushedAt.ediv 1440) weekStartsOn).2))).length ≤ 1 ∧
        aggregate_weekly_stats true weekStartsOn dailyTable
            (aggregate_weekly_stats true weekStartsOn dailyTable weeklyTable
              latestPushedAt).1 latestPushedAt =
          ((aggregate_weekly_stats true weekStartsOn dailyTable weeklyTable
              latestPushedAt).1, false)) := by
  intro db b last pe ws dt wt t
  refine ⟨?_, ?_, ?_, ?_⟩
  · rintro ⟨r, hr, hpe⟩
    have hany : db.batchTable.any (fun r => decide (r.PeriodEnd = pe)) = true :=
      List.any_eq_true.mpr ⟨r, hr, by simpa using hpe⟩
    simp [aggregate_batch_stats, hany]
  · intro h0
    have hnil : db.batchTable.filter (fun r => decide (r.PeriodEnd = pe)) = [] :=
      List.length_eq_zero.mp h0
    have hany : db.batchTable.any (fun r => decide (r.PeriodEnd = pe)) = false := by
      rw [List.any_eq_false]
      intro x hx
      have := List.filter_eq_nil_iff.mp hnil x hx
      simpa using this
    have hres : aggregate_batch_stats true db b last pe =
        ({ db with batchTable := db.batchTable ++ [aggRowFor db b last pe] }, true) := by
      simp [aggregate_batch_stats, hany]
    refine ⟨by rw [hres], ?_, ?_⟩
    · rw [hres]
      simp only [List.filter_append, hnil, List.nil_append]
      simp [List.filter, aggRowFor_PeriodEnd]
    · rw [hres]
      have hany2 : (db.batchTable ++ [aggRowFor db b last pe]).any
          (fun r => decide (r.PeriodEnd = pe)) = true := by
        apply List.any_eq_true.mpr
        exact ⟨aggRowFor db b last pe, by simp, by simp [aggRowFor_PeriodEnd]⟩
      simp [aggregate_batch_stats, hany2]
  · rintro ⟨r, hr, hy, hw⟩
    have hany : wt.any (fun r =>
        decide (r.Year = (get_week_number (t.ediv 1440) ws).1) &&
          decide (r.WeekNumber = (get_week_number (t.ediv 1440) ws).2)) = true :=
      List.any_eq_true.mpr ⟨r, hr, by simp [hy, hw]⟩
    simp [aggregate_weekly_stats, hany]
  · intro h0
    have hnil : wt.filter (fun r =>
        decide (r.Year = (get_week_number (t.ediv 1440) ws).1) &&
          decide (r.WeekNumber = (get_week_number (t.ediv 1440) ws).2)) = [] :=
      List.length_eq_zero.mp h0
    have hany : wt.any (fun r =>
        decide (r.Year = (get_week_number (t.ediv 1440) ws).1) &&
          decide (r.WeekNumber = (get_week_number (t.ediv 1440) ws).2)) = false := by
      rw [List.any_eq_false]
      intro x hx
      have := List.filter_eq_nil_iff.mp hnil x hx
      simpa using this
    by_cases hde : (dailyStatsForWeek dt (get_week_start_end (t.ediv 1440) ws).1
        (get_week_start_end (t.ediv 1440) ws).2).isEmpty = true
    · have hres : aggregate_weekly_stats true ws dt wt t = (wt, false) := by
        simp [aggregate_weekly_stats, hany, hde]
      rw [hres]
      refine ⟨?_, by rw [hres]⟩
      rw [hnil]
      simp
    · have hde2 : (dailyStatsForWeek dt (get_week_start_end (t.ediv 1440) ws).1
          (get_week_start_end (t.ediv 1440) ws).2).isEmpty = false := by
        rwa [Bool.not_eq_true] at hde
      have hres : aggregate_weekly_stats true ws dt wt t =
          (wt ++ [weeklyRowFor ws dt t], true) := by
        simp [aggregate_weekly_stats, hany, hde2]
      rw [hres]
      constructor
      · simp only [List.filter_append, hnil, List.nil_append]
        have hle : (List.filter (fun r =>
            decide (r.Year = (get_week_number (t.ediv 1440) ws).1) &&
              decide (r.WeekNumber = (get_week_number (t.ediv 1440) ws).2))
            [weeklyRowFor ws dt t]).length ≤ [weeklyRowFor ws dt t].length :=
          List.length_filter_le _ _
        simpa using hle
      · have hany2 : (wt ++ [weeklyRowFor ws dt t]).any (fun r =>
            decide (r.Year = (get_week_number (t.ediv 1440) ws).1) &&
              decide (r.WeekNumber = (get_week_number (t.ediv 1440) ws).2)) = true := by
          apply List.any_eq_true.mpr
          exact ⟨weeklyRowFor ws dt t, by simp,
            by simp [weeklyRowFor_Year, weeklyRowFor_WeekNumber]⟩
        simp [aggregate_weekly_stats, hany2]


/-- C6: when zero batch records fall inside the aggregation period (and the
period key is fresh), `aggregate_batch_stats` still inserts a record whose
`BatchMissing` flag is 1 and whose snapshot fields (`TotalOpenCalls`,
`TotalCallsWithMultiAppt`, `TotalNotServicedYet`,
`AverageAppointmentNumber`) equal those of the batch-aggregate row with the
greatest `PeriodEnd` before the current one - zeros only when no such
previous row exists. -/
theorem batch_missing_continuity :
    ∀ (db : StatsDB) (isRecyclerType : Bool) (lastAggregationTimestamp : Option Int)
      (currentBatchTimestamp : Int),
      db.batchTable.any (fun r => decide (r.PeriodEnd = currentBatchTimestamp)) = false →
      batchesInPeriod db.statTable lastAggregationTimestamp currentBatchTimestamp = [] →
      (aggregate_batch_stats true db isRecyclerType lastAggregationTimestamp
          currentBatchTimestamp).2 = true ∧
      (aggregate_batch_stats true db isRecyclerType lastAggregationTimestamp
          currentBatchTimestamp).1.batchTable =
        db.batchTable ++
          [aggRowFor db isRecyclerType lastAggregationTimestamp currentBatchTimestamp] ∧
      (aggRowFor db isRecyclerType lastAggregationTimestamp
          currentBatchTimestamp).BatchMissing = 1 ∧
      ((aggRowFor db isRecyclerType lastAggregationTimestamp
          currentBatchTimestamp).TotalOpenCalls,
        (aggRowFor db isRecyclerType lastAggregationTimestamp
          currentBatchTimestamp).TotalCallsWithMultiAppt,
        (aggRowFor db isRecyclerType lastAggregationTimestamp
          currentBatchTimestamp).TotalNotServicedYet,
        (aggRowFor db isRecyclerType lastAggregationTimestamp
          currentBatchTimestamp).AverageAppointmentNumber) =
        (match latestAggBefore db.batchTable currentBatchTimestamp with
          | some p => (p.TotalOpenCalls, p.TotalCallsWithMultiAppt, p.TotalNotServicedYet,
              p.AverageAppointmentNumber)
          | none => (0, 0, 0, 0)) := by
  intro db b last pe hany hempty
  refine ⟨by simp [aggregate_batch_stats, hany], by simp [aggregate_batch_stats, hany],
    ?_, ?_⟩
  · simp [aggRowFor, hempty]
  · cases hprev : latestAggBefore db.batchTable pe with
    | some p => simp [aggRowFor, hempty, hprev]
    | none => simp [aggRowFor, hempty, hprev]

/-- A concrete committed batch-aggregate row (PeriodEnd 50) used by the
aggregation witnesses. -/
def sampleAggRow : AggRow :=
  ⟨0, 0, 0, 50, 50, 50, 7, 4, 2, 3, 0, 0, 2, 9, 5, (5 : Rat) / 2, 0, 0, 0,
    1, 2, (1 : Rat) / 2, 1, 3, (1 : Rat) / 3, 2, 0⟩

/-- Witness for C5: re-running the batch aggregator for the already
committed `PeriodEnd = 50` is a skip that changes nothing. -/
theorem aggregate_idempotent_skip_witness :
    aggregate_batch_stats true ⟨[], [sampleAggRow], []⟩ true none 50 =
      (⟨[], [sampleAggRow], []⟩, false) :=
  (aggregate_idempotent_skip ⟨[], [sampleAggRow], []⟩ true none 50 "Sunday" [] [] 0).1
    ⟨sampleAggRow, by simp, rfl⟩

/-- Witness for C6: aggregating at timestamp 100 with an empty stat table
carries the committed row's snapshot fields forward and sets the missing
flag. -/
theorem batch_missing_continuity_witness :
    (aggRowFor ⟨[], [sampleAggRow], []⟩ true none 100).BatchMissing = 1 ∧
    ((aggRowFor ⟨[], [sampleAggRow], []⟩ true none 100).TotalOpenCalls,
      (aggRowFor ⟨[], [sampleAggRow], []⟩ true none 100).TotalCallsWithMultiAppt,
      (aggRowFor ⟨[], [sampleAggRow], []⟩ true none 100).TotalNotServicedYet,
      (aggRowFor ⟨[], [sampleAggRow], []⟩ true none 100).AverageAppointmentNumber) =
      (match latestAggBefore [sampleAggRow] 100 with
        | some p => (p.TotalOpenCalls, p.TotalCallsWithMultiAppt, p.TotalNotServicedYet,
            p.AverageAppointmentNumber)
        | none => (0, 0, 0, 0)) :=
  ⟨(batch_missing_continuity ⟨[], [sampleAggRow], []⟩ true none 100
      (by decide) rfl).2.2.1,
    (batch_missing_continuity ⟨[], [sampleAggRow], []⟩ true none 100
      (by decide) rfl).2.2.2⟩
